import Mathlib

/-!
Verification of the `gdg_json` wrapper (class `GDGJson` in
`src/src/gdg_json/__init__.py`, the polars-based variant, which the
claims cite).

The adapter wraps a single polars `DataFrame`.  We embed a DataFrame as an
ordered list of named, typed columns (`Table`), and each adapter method as a
function on tables.  Polars primitives used by the wrapper (`read_json`,
`to_dicts`, `select`, `explode`, `rename`, `drop`, `with_columns`,
`struct.field`, `__setitem__`) are embedded according to polars semantics:
  * `explode` turns an empty list (or a null) into a single null row;
  * `select` with duplicate output names raises `DuplicateError`;
  * `rename` validates that every key names an existing column;
  * `DataFrame.__setitem__` with a string key raises `TypeError`
    (polars does not support `df[name] = value` column assignment);
  * `to_dicts` returns a Python list of per-row dicts.
Errors are collapsed to the spec's abstract taxonomy (`Err`).

Each adapter method body in the source is a sequence of statements of the
form `self.df = <pure polars expression>`.  A method call is embedded as an
`MStep`: success with the new table, failure before any assignment to
`self.df` (`fail`), or failure after an intermediate assignment already
replaced `self.df` (`failMut`, carrying the intermediate table).
-/

namespace GDG

/-- A JSON value, as polars stores it in a cell (struct and list values are
used by the unnest operations; a missing/undefined cell is `null`). -/
inductive JVal where
  | null : JVal
  | int : Int → JVal
  | str : String → JVal
  | bool : Bool → JVal
  | obj : List (String × JVal) → JVal
  | arr : List JVal → JVal

/-- A polars data type, as recorded in `df.schema`.  `struct` carries the
ordered field list that `__unnest_with_prefix` reads via `.fields`. -/
inductive DType where
  | int : DType
  | str : DType
  | bool : DType
  | null : DType
  | struct : List (String × DType) → DType
  | list : DType → DType

/-- One named column: name, dtype, and the column's row values. -/
abbrev Col := String × DType × List JVal

/-- A DataFrame: an ordered list of named columns (all of equal length in a
well-formed frame). -/
abbrev Table := List Col

/-- Abstract error taxonomy for the exceptions the wrapper can propagate. -/
inductive Err where
  | invalidInput : Err
  | columnNotFound : Err
  | notAStruct : Err
  | notAList : Err
  | duplicateColumn : Err
  | typeError : Err

/-- Name of a column. -/
def colName (c : Col) : String := c.1

/-- Dtype of a column. -/
def colType (c : Col) : DType := c.2.1

/-- Row values of a column. -/
def colVals (c : Col) : List JVal := c.2.2

/-- The column named `n`, if present (polars column lookup). -/
def findCol (t : Table) (n : String) : Option Col :=
  t.find? (fun c => colName c == n)

/-- Whether the frame has a column named `n`. -/
def hasCol (t : Table) (n : String) : Bool :=
  t.any (fun c => colName c == n)

/-- Number of rows of the frame (length of its first column; polars frames
keep all columns at equal length). -/
def height (t : Table) : Nat :=
  match t with
  | [] => 0
  | c :: _ => (colVals c).length

/-- Boolean check that a list of column names has no duplicates (polars
`select` and `rename` reject duplicate output names). -/
def namesNodup : List String → Bool
  | [] => true
  | n :: rest => !(rest.contains n) && namesNodup rest

mutual

/-- Schema inference for a single JSON value, as polars does when reading
JSON (struct fields keep their order; list element type from the first
element). -/
def inferDType : JVal → DType
  | .null => .null
  | .int _ => .int
  | .str _ => .str
  | .bool _ => .bool
  | .obj fs => .struct (inferFields fs)
  | .arr [] => .list .null
  | .arr (x :: _) => .list (inferDType x)

/-- Schema inference for the fields of a JSON object. -/
def inferFields : List (String × JVal) → List (String × DType)
  | [] => []
  | (n, v) :: rest => (n, inferDType v) :: inferFields rest

end

/-- Value of key `k` in a JSON record (first match; `null` when absent). -/
def lookupKey (r : List (String × JVal)) (k : String) : JVal :=
  match r.find? (fun p => p.1 == k) with
  | some p => p.2
  | none => .null

/-- `pl.read_json` on a JSON array of records: one column per key of the
first record (in key order), holding that key's value from every record. -/
def readJsonRecords (rows : List (List (String × JVal))) : Table :=
  match rows with
  | [] => []
  | r0 :: _ =>
      r0.map (fun kv => (kv.1, inferDType kv.2, rows.map (fun r => lookupKey r kv.1)))

/-- `pl.DataFrame` on a dict mapping column name to a list of values. -/
def dfOfDict (m : List (String × List JVal)) : Table :=
  m.map (fun p => (p.1, (p.2.headD .null) |> inferDType, p.2))

/-- Row `i` of the frame as a record (column name to value, column order). -/
def rowAt (t : Table) (i : Nat) : List (String × JVal) :=
  t.map (fun c => (colName c, (colVals c).getD i .null))

/-- `df.to_dicts()`: the frame as a list of per-row records. -/
def toDicts (t : Table) : List (List (String × JVal)) :=
  (List.range (height t)).map (rowAt t)

/-- `df.select(pl.col(n))`: keep only column `n`. -/
def selectCol (t : Table) (n : String) : Except Err Table :=
  match findCol t n with
  | none => .error .columnNotFound
  | some c => .ok [c]

/-- `df.select(names)` on plain column names: the requested columns in the
requested order; rejects unknown names and duplicate output names. -/
def selectCols (t : Table) (names : List String) : Except Err Table :=
  if names.all (fun n => hasCol t n) then
    if namesNodup names then
      .ok (names.map (fun n => (findCol t n).getD (n, .null, [])))
    else .error .duplicateColumn
  else .error .columnNotFound

/-- `pl.col(c).struct.field(f)` on one cell: the field's value, `null` for a
null struct (as after exploding an empty list). -/
def getField (f : String) : JVal → JVal
  | .obj fs => lookupKey fs f
  | _ => .null

/-- `alias` string computed by `__unnest_with_prefix`: `None` (the unset
default) gives `column_name + "_"`, the empty string gives `""`, any other
string `p` gives `p + "_"`. -/
def aliasOf (columnName : String) : Option String → String
  | none => columnName ++ "_"
  | some "" => ""
  | some p => p ++ "_"

/-- `GDGJson.__unnest_with_prefix(column_name, prefix)`: a `select` that
emits one column `alias + field.name` per field of the struct column
(values extracted per row), followed by every other column unchanged,
in order.  Fails when the column is absent (`schema[column_name]` raises),
when its dtype is not a struct (`.fields` raises), or when the output names
collide (`select` raises `DuplicateError`). -/
def unnestWithPrefix (t : Table) (c : String) (pfx : Option String) : Except Err Table :=
  match findCol t c with
  | none => .error .columnNotFound
  | some col =>
      match colType col with
      | .struct fields =>
          let al := aliasOf c pfx
          let fieldCols : Table :=
            fields.map (fun f => (al ++ f.1, f.2, (colVals col).map (getField f.1)))
          let rest : Table := t.filter (fun c2 => colName c2 != c)
          if namesNodup ((fieldCols ++ rest).map colName) then
            .ok (fieldCols ++ rest)
          else .error .duplicateColumn
      | _ => .error .notAStruct

/-- How one cell of a list column explodes: each element becomes a row, but
an empty list — like a null — becomes a single null row (polars `explode`
semantics). -/
def explodeVal : JVal → List JVal
  | .arr [] => [.null]
  | .arr xs => xs
  | _ => [.null]

/-- Rows each cell of the exploding column expands to. -/
def explodeCounts (vals : List JVal) : List Nat :=
  vals.map (fun v => (explodeVal v).length)

/-- Values of a non-exploding column after `explode`: each value repeated
as many times as its row expands to. -/
def dupRows (vals : List JVal) (counts : List Nat) : List JVal :=
  ((vals.zip counts).map (fun p => List.replicate p.2 p.1)).flatten

/-- What `df.explode(c)` does to one column, given the exploding column's
name, element type and per-row multiplicities: the exploding column is
flattened (and takes the element type), every other column has its values
repeated to match. -/
def explodeColAction (c : String) (elemTy : DType) (counts : List Nat)
    (c2 : Col) : Col :=
  if colName c2 == c then
    ((colName c2 : String), elemTy, ((colVals c2).map explodeVal).flatten)
  else ((colName c2 : String), colType c2, dupRows (colVals c2) counts)

/-- `df.explode(c)`: requires `c` to be a list column; flattens `c` (empty
lists and nulls becoming single null rows) and repeats every other column's
values to match. -/
def explode (t : Table) (c : String) : Except Err Table :=
  match findCol t c with
  | none => .error .columnNotFound
  | some col =>
      match colType col with
      | .list elemTy =>
          .ok (t.map (explodeColAction c elemTy (explodeCounts (colVals col))))
      | _ => .error .notAList

/-- Insertion into a Python dict built from pairs: a repeated key overwrites
the stored value in place, a new key appends. -/
def pyDictInsert (d : List (String × String)) (p : String × String) :
    List (String × String) :=
  if d.any (fun q => q.1 == p.1) then
    d.map (fun q => if q.1 == p.1 then (q.1, p.2) else q)
  else d ++ [p]

/-- `dict(pairs)` for string pairs, with Python's overwrite semantics. -/
def pyDict (ps : List (String × String)) : List (String × String) :=
  ps.foldl pyDictInsert []

/-- `df.rename(mapping)`: every key must name an existing column; matching
columns are renamed in place (order unchanged); duplicate resulting names
are rejected. -/
def renameMap (t : Table) (m : List (String × String)) : Except Err Table :=
  if m.all (fun p => hasCol t p.1) then
    let t2 := t.map (fun c =>
      match m.find? (fun p => p.1 == colName c) with
      | some p => (p.2, c.2)
      | none => c)
    if namesNodup (t2.map colName) then .ok t2 else .error .duplicateColumn
  else .error .columnNotFound

/-- `df.drop(names)`: every name must exist; the named columns are removed,
the rest keep their order. -/
def dropColsDf (t : Table) (names : List String) : Except Err Table :=
  if names.all (fun n => hasCol t n) then
    .ok (t.filter (fun c => !(names.contains (colName c))))
  else .error .columnNotFound

/-- `df.with_columns(pl.col(c).alias(new))`: duplicates column `c` under the
name `new`, overwriting an existing column `new` in place or appending at
the end. -/
def withColumnAlias (t : Table) (c new : String) : Except Err Table :=
  match findCol t c with
  | none => .error .columnNotFound
  | some col =>
      if hasCol t new then
        .ok (t.map (fun c2 => if colName c2 == new then (new, col.2) else c2))
      else .ok (t ++ [(new, col.2)])

/-- `df[name] = value`: polars `DataFrame.__setitem__` rejects assignment by
string key with a `TypeError` (column assignment must use `with_columns`),
regardless of frame, name or value. -/
def dfSetItem (_t : Table) (_name : String) (_v : JVal) : Except Err Table :=
  .error .typeError

/-- Outcome of one adapter method call: success with the new `self.df`;
failure with no assignment to `self.df` having happened (`fail`); or failure
after an earlier statement already replaced `self.df` with an intermediate
table (`failMut`). -/
inductive MStep where
  | done : Table → MStep
  | fail : Err → MStep
  | failMut : Err → Table → MStep

/-- A method whose body is the single statement `self.df = <expr>`: on
error nothing was assigned. -/
def mkStep : Except Err Table → MStep
  | .ok t => .done t
  | .error e => .fail e

/-- `GDGJson.expand_column(column_name, prefix)`. -/
def expandColumn (t : Table) (c : String) (pfx : Option String) : MStep :=
  mkStep (unnestWithPrefix t c pfx)

/-- `GDGJson.unnest_column_as_root(column_name)`: first
`self.df = self.df.select(pl.col(column_name))`, then
`self.df = self.__unnest_with_prefix(column_name, '')` — so a failure in
the second statement leaves `self.df` holding the selected one-column
table. -/
def unnestColumnAsRoot (t : Table) (c : String) : MStep :=
  match selectCol t c with
  | .error e => .fail e
  | .ok t1 =>
      match unnestWithPrefix t1 c (some "") with
      | .error e => .failMut e t1
      | .ok t2 => .done t2

/-- `GDGJson.unnest_column_as_rows(column_name, prefix)`: first
`self.df = self.df.explode(column_name)`, then
`self.df = self.__unnest_with_prefix(column_name, prefix)` — so a failure
in the second statement leaves `self.df` holding the exploded table. -/
def unnestColumnAsRows (t : Table) (c : String) (pfx : Option String) : MStep :=
  match explode t c with
  | .error e => .fail e
  | .ok t1 =>
      match unnestWithPrefix t1 c pfx with
      | .error e => .failMut e t1
      | .ok t2 => .done t2

/-- `GDGJson.rename_column(from_name, to_name)`. -/
def renameColumn (t : Table) (a b : String) : MStep :=
  mkStep (renameMap t [(a, b)])

/-- `GDGJson.rename_columns(from_names, to_names)`: delegates to
`df.rename(dict(zip(from_names, to_names)))` — `zip` silently truncates to
the shorter sequence. -/
def renameColumns (t : Table) (fromNames toNames : List String) : MStep :=
  mkStep (renameMap t (pyDict (fromNames.zip toNames)))

/-- `GDGJson.drop(column_names)` (list form). -/
def dropColumns (t : Table) (names : List String) : MStep :=
  mkStep (dropColsDf t names)

/-- `GDGJson.duplicate_column(column_name, new_column_name)`. -/
def duplicateColumn (t : Table) (c new : String) : MStep :=
  mkStep (withColumnAlias t c new)

/-- `GDGJson.set_constant(column_name, value)`: the body is
`self.df[column_name] = value`, which polars rejects. -/
def setConstant (t : Table) (c : String) (v : JVal) : MStep :=
  mkStep (dfSetItem t c v)

/-- A value passed to `GDGJson.__init__`, as the constructor's `isinstance`
chain distinguishes them: a JSON text (carried here as the record list it
denotes), a dict of columns, a prebuilt DataFrame, or anything else —
such as the Python list that `to_dicts()` returns. -/
inductive PyVal where
  | jsonText : List (List (String × JVal)) → PyVal
  | dict : List (String × List JVal) → PyVal
  | frame : Table → PyVal
  | pyList : List (List (String × JVal)) → PyVal

/-- `GDGJson.__init__(json_obj)`: strings are parsed with `pl.read_json`,
dicts wrapped with `pl.DataFrame`, DataFrames stored as-is; anything else
raises `ValueError`. -/
def gdgInit : PyVal → Except Err Table
  | .jsonText rows => .ok (readJsonRecords rows)
  | .dict m => .ok (dfOfDict m)
  | .frame t => .ok t
  | .pyList _ => .error .invalidInput

/-- `GDGJson.copy()`: `GDGJson(self.to_json())`, where `to_json` returns
`self.df.to_dicts()` — a Python list, which `__init__` does not accept. -/
def copyAdapter (t : Table) : Except Err Table :=
  gdgInit (.pyList (toDicts t))

/-- `GDGJson.select(*args, copy=...)` on plain names: with `copy=True` it
calls `self.copy()` first (which raises before any assignment); otherwise
it is `self.df = self.df.select(*args)`. -/
def selectMethod (t : Table) (names : List String) (copyFlag : Bool) : MStep :=
  if copyFlag then
    match copyAdapter t with
    | .error e => .fail e
    | .ok t1 => mkStep (selectCols t1 names)
  else mkStep (selectCols t names)

/-- One adapter transform call, for reasoning about call sequences. -/
inductive Op where
  | expand : String → Option String → Op
  | asRoot : String → Op
  | asRows : String → Option String → Op
  | rename1 : String → String → Op
  | renameN : List String → List String → Op
  | dropN : List String → Op
  | dup : String → String → Op
  | setConst : String → JVal → Op
  | selectN : List String → Bool → Op

/-- Dispatch one transform on the adapter's current table. -/
def methodOf (op : Op) (t : Table) : MStep :=
  match op with
  | .expand c pfx => expandColumn t c pfx
  | .asRoot c => unnestColumnAsRoot t c
  | .asRows c pfx => unnestColumnAsRows t c pfx
  | .rename1 a b => renameColumn t a b
  | .renameN ks vs => renameColumns t ks vs
  | .dropN ns => dropColumns t ns
  | .dup a b => duplicateColumn t a b
  | .setConst c v => setConstant t c v
  | .selectN ns cf => selectMethod t ns cf

/-- The store of live table objects: every polars expression the wrapper
evaluates produces a fresh table appended here; existing entries are never
written (polars frames are not mutated in place, and each method body only
rebinds `self.df`). -/
structure Heap where
  tables : List Table

/-- The adapter: `self.df` is a reference into the heap. -/
structure AdapterRef where
  ix : Nat

/-- One method call on the adapter: a success or a partial failure appends
the newly produced table and rebinds `self.df` to it; a clean failure
changes nothing. -/
def step (h : Heap) (a : AdapterRef) (op : Op) : Heap × AdapterRef :=
  match h.tables[a.ix]? with
  | none => (h, a)
  | some t =>
      match methodOf op t with
      | .done t2 => (⟨h.tables ++ [t2]⟩, ⟨h.tables.length⟩)
      | .fail _ => (h, a)
      | .failMut _ t1 => (⟨h.tables ++ [t1]⟩, ⟨h.tables.length⟩)

/-- Run a sequence of transform calls on the adapter. -/
def runOps (h : Heap) (a : AdapterRef) : List Op → Heap × AdapterRef
  | [] => (h, a)
  | op :: ops => runOps (step h a op).1 (step h a op).2 ops

/-- The column name `expand_column`/unnest gives field `f` of column `c`
under `prefix` argument `pfx`, as the spec words it: the unset default
gives `"c_f"`, the empty string gives `"f"` alone, and a non-empty prefix
`p` gives `"p_f"`. -/
def specFieldName (c : String) (pfx : Option String) (f : String) : String :=
  match pfx with
  | none => c ++ "_" ++ f
  | some "" => f
  | some p => p ++ "_" ++ f

end GDG

namespace GDG

/-! ### Helper lemmas -/

theorem str_empty_append (s : String) : "" ++ s = s := by
  cases s
  rfl

theorem aliasOf_append (c : String) (pfx : Option String) (f : String) :
    aliasOf c pfx ++ f = specFieldName c pfx f := by
  cases pfx with
  | none => simp [aliasOf, specFieldName, String.append_assoc]
  | some p =>
      by_cases hp : p = ""
      · subst hp
        show ("" : String) ++ f = f
        exact str_empty_append f
      · have h1 : aliasOf c (some p) = p ++ "_" := by
          unfold aliasOf
          split
          · rename_i h
            cases h
          · rename_i h
            exact absurd (Option.some.inj h) hp
          · rename_i h
            rw [← Option.some.inj h]
        have h2 : specFieldName c (some p) f = p ++ "_" ++ f := by
          unfold specFieldName
          split
          · rename_i h
            cases h
          · rename_i h
            exact absurd (Option.some.inj h) hp
          · rename_i h
            rw [← Option.some.inj h]
        rw [h1, h2, String.append_assoc]

theorem mkStep_ne_failMut (r : Except Err Table) (e : Err) (t1 : Table) :
    mkStep r ≠ MStep.failMut e t1 := by
  cases r <;> simp [mkStep]

theorem namesNodup_cons (n : String) (l : List String) :
    namesNodup (n :: l) = (!(l.contains n) && namesNodup l) := rfl

theorem namesNodup_append_false (l1 l2 : List String) (x : String)
    (h1 : x ∈ l1) (h2 : x ∈ l2) : namesNodup (l1 ++ l2) = false := by
  induction l1 with
  | nil => cases h1
  | cons a l1 ih =>
      rcases List.mem_cons.1 h1 with h | h
      · subst h
        have hc : (l1 ++ l2).contains x = true :=
          List.elem_eq_true_of_mem (List.mem_append.2 (Or.inr h2))
        rw [List.cons_append, namesNodup_cons, hc]
        rfl
      · rw [List.cons_append, namesNodup_cons, ih h, Bool.and_false]

end GDG

namespace GDG

theorem zip_take_min (ks vs : List String) :
    ks.zip vs
      = (ks.take (min ks.length vs.length)).zip (vs.take (min ks.length vs.length)) := by
  induction ks generalizing vs with
  | nil => simp
  | cons a ks ih =>
      cases vs with
      | nil => simp
      | cons b vs =>
          simp only [List.length_cons, Nat.succ_min_succ, List.take_succ_cons,
            List.zip_cons_cons]
          rw [← ih]

/-! ### Claim theorems -/

/-- Claim C4 (code bug): `copy()` never returns an adapter at all — it feeds
`self.to_json()` (the Python list returned by `df.to_dicts()`) back into
`__init__`, whose `isinstance` chain accepts only a string, dict or
DataFrame, so every call raises `ValueError` instead of producing an
independent copy. -/
theorem claim4_copy_always_raises (t : Table) :
    copyAdapter t = Except.error Err.invalidInput := rfl

/-- Claim C8 (code bug): `set_constant` can never succeed — its body
`self.df[column_name] = value` hits polars `DataFrame.__setitem__`, which
rejects string-key column assignment with a `TypeError` for every frame,
column name and value, so no column is ever set or created. -/
theorem claim8_set_constant_always_raises (t : Table) (c : String) (v : JVal) :
    setConstant t c v = MStep.fail Err.typeError := rfl

/-- Claim C3 counterexample: calling `unnest_column_as_root` on an existing
non-struct column first assigns the selected one-column table to `self.df`
and only then fails on the struct expansion, leaving the adapter's table
different from the one it held before the call. -/
theorem claim3_counterexample :
    unnestColumnAsRoot
        [("a", DType.int, [JVal.int 1]), ("b", DType.int, [JVal.int 2])] "b"
      = MStep.failMut Err.notAStruct [("b", DType.int, [JVal.int 2])] ∧
    ([("b", DType.int, [JVal.int 2])] : Table)
      ≠ [("a", DType.int, [JVal.int 1]), ("b", DType.int, [JVal.int 2])] := by
  refine ⟨rfl, fun h => ?_⟩
  simpa using congrArg List.length h

/-- Claim C3 (amended): a transform whose body is a single assignment
(`expand_column`, `rename_column`, `rename_columns`, `drop`,
`duplicate_column`, `set_constant`) leaves the adapter's table unchanged
whenever it raises; `unnest_column_as_root` and `unnest_column_as_rows`
leave it unchanged only when their first statement (the column select /
explode) raises — when that first statement succeeds and the struct
expansion then raises, the adapter is left holding the intermediate
selected or exploded table. -/
theorem claim3_transform_error_states :
    (∀ (t : Table) (c : String) (pfx : Option String) (e : Err) (t1 : Table),
        expandColumn t c pfx ≠ MStep.failMut e t1) ∧
    (∀ (t : Table) (a b : String) (e : Err) (t1 : Table),
        renameColumn t a b ≠ MStep.failMut e t1) ∧
    (∀ (t : Table) (ks vs : List String) (e : Err) (t1 : Table),
        renameColumns t ks vs ≠ MStep.failMut e t1) ∧
    (∀ (t : Table) (ns : List String) (e : Err) (t1 : Table),
        dropColumns t ns ≠ MStep.failMut e t1) ∧
    (∀ (t : Table) (a b : String) (e : Err) (t1 : Table),
        duplicateColumn t a b ≠ MStep.failMut e t1) ∧
    (∀ (t : Table) (c : String) (v : JVal) (e : Err) (t1 : Table),
        setConstant t c v ≠ MStep.failMut e t1) ∧
    (∀ (t : Table) (c : String) (e : Err),
        selectCol t c = .error e → unnestColumnAsRoot t c = MStep.fail e) ∧
    (∀ (t : Table) (c : String) (e : Err) (t1 : Table),
        unnestColumnAsRoot t c = MStep.failMut e t1 →
          selectCol t c = .ok t1 ∧ unnestWithPrefix t1 c (some "") = .error e) ∧
    (∀ (t : Table) (c : String) (pfx : Option String) (e : Err),
        explode t c = .error e → unnestColumnAsRows t c pfx = MStep.fail e) ∧
    (∀ (t : Table) (c : String) (pfx : Option String) (e : Err) (t1 : Table),
        unnestColumnAsRows t c pfx = MStep.failMut e t1 →
          explode t c = .ok t1 ∧ unnestWithPrefix t1 c pfx = .error e) := by
  refine ⟨?_, ?_, ?_, ?_, ?_, ?_, ?_, ?_, ?_, ?_⟩
  · exact fun t c pfx => mkStep_ne_failMut _
  · exact fun t a b => mkStep_ne_failMut _
  · exact fun t ks vs => mkStep_ne_failMut _
  · exact fun t ns => mkStep_ne_failMut _
  · exact fun t a b => mkStep_ne_failMut _
  · exact fun t c v => mkStep_ne_failMut _
  · intro t c e h
    simp [unnestColumnAsRoot, h]
  · intro t c e t1 h
    unfold unnestColumnAsRoot at h
    split at h
    · cases h
    · rename_i t2 hs
      split at h
      · rename_i e3 hu
        cases h
        exact ⟨hs, hu⟩
      · cases h
  · intro t c pfx e h
    simp [unnestColumnAsRows, h]
  · intro t c pfx e t1 h
    unfold unnestColumnAsRows at h
    split at h
    · cases h
    · rename_i t2 hs
      split at h
      · rename_i e3 hu
        cases h
        exact ⟨hs, hu⟩
      · cases h

/-- Witness for the amended claim C3 at a concrete input: selecting an
absent column fails before any assignment, so the failure is clean. -/
theorem claim3_witness :
    unnestColumnAsRoot [] "a" = MStep.fail Err.columnNotFound :=
  claim3_transform_error_states.2.2.2.2.2.2.1 [] "a" Err.columnNotFound rfl

/-- Claim C5 counterexample: `rename_columns` with lists of different
lengths does not raise — `dict(zip(...))` silently truncates to the shorter
list and the rename succeeds. -/
theorem claim5_counterexample :
    renameColumns [("a", DType.int, []), ("b", DType.int, [])] ["a", "b"] ["x"]
      = MStep.done [("x", DType.int, []), ("b", DType.int, [])] ∧
    (["a", "b"] : List String).length ≠ (["x"] : List String).length := by
  exact ⟨rfl, by decide⟩

/-- Claim C5 (amended): `rename_columns` pairs the two lists positionally
and silently truncates to the shorter one (it never raises a length
mismatch error: its behaviour on mismatched lists equals its behaviour on
the truncated lists); it fails with `ColumnNotFoundError` whenever some
paired `from_name` is absent from the table. -/
theorem claim5_rename_columns_errors :
    (∀ (t : Table) (ks vs : List String),
        renameColumns t ks vs
          = renameColumns t (ks.take (min ks.length vs.length))
              (vs.take (min ks.length vs.length))) ∧
    (∀ (t : Table) (ks vs : List String),
        (∃ p ∈ pyDict (ks.zip vs), hasCol t p.1 = false) →
          renameColumns t ks vs = MStep.fail Err.columnNotFound) := by
  constructor
  · intro t ks vs
    simp only [renameColumns]
    rw [← zip_take_min]
  · intro t ks vs h
    rcases h with ⟨p, hmem, hfalse⟩
    have hall : (pyDict (ks.zip vs)).all (fun p => hasCol t p.1) = false := by
      rw [List.all_eq_false]
      exact ⟨p, hmem, by simp [hfalse]⟩
    simp [renameColumns, mkStep, renameMap, hall]

/-- Witness for the amended claim C5 at a concrete input: renaming a column
absent from the table fails with the column-not-found error. -/
theorem claim5_witness :
    renameColumns [("a", DType.int, [])] ["z"] ["x"]
      = MStep.fail Err.columnNotFound :=
  claim5_rename_columns_errors.2 [("a", DType.int, [])] ["z"] ["x"]
    ⟨("z", "x"), by decide, by decide⟩

end GDG

namespace GDG

theorem colName_mk (a : String) (d : DType) (v : List JVal) :
    colName (a, d, v) = a := rfl

/-- Shape of `__unnest_with_prefix` once the struct column has been found:
the field columns followed by the remaining columns, guarded by the
duplicate-name check of `select`. -/
theorem unnestWithPrefix_eq (t : Table) (c : String) (pfx : Option String)
    (fields : List (String × DType)) (vals : List JVal)
    (hfind : findCol t c = some (c, DType.struct fields, vals)) :
    unnestWithPrefix t c pfx =
      (if namesNodup
          (((fields.map (fun f =>
                ((aliasOf c pfx ++ f.1 : String), f.2, vals.map (getField f.1))))
            ++ t.filter (fun c2 => colName c2 != c)).map colName) then
        Except.ok ((fields.map (fun f =>
              ((aliasOf c pfx ++ f.1 : String), f.2, vals.map (getField f.1))))
            ++ t.filter (fun c2 => colName c2 != c))
      else Except.error Err.duplicateColumn) := by
  unfold unnestWithPrefix
  rw [hfind]
  rfl

/-- Claim C9: expanding a struct column whose generated field-column name
collides with a distinct sibling column raises the duplicate-column error
instead of silently overwriting or merging the sibling. -/
theorem claim9_expand_collision_raises (t : Table) (c : String)
    (pfx : Option String) (fields : List (String × DType)) (vals : List JVal)
    (col2 : Col) (hfind : findCol t c = some (c, DType.struct fields, vals))
    (hmem : col2 ∈ t) (hne : colName col2 ≠ c)
    (hcollide : colName col2 ∈ fields.map (fun f => specFieldName c pfx f.1)) :
    expandColumn t c pfx = MStep.fail Err.duplicateColumn := by
  have halias : (fun (f : String × DType) => aliasOf c pfx ++ f.1)
      = fun (f : String × DType) => specFieldName c pfx f.1 :=
    funext fun f => aliasOf_append c pfx f.1
  unfold expandColumn
  rw [unnestWithPrefix_eq t c pfx fields vals hfind]
  have hfalse : namesNodup
      (((fields.map (fun f =>
            ((aliasOf c pfx ++ f.1 : String), f.2, vals.map (getField f.1))))
        ++ t.filter (fun c2 => colName c2 != c)).map colName) = false := by
    rw [List.map_append]
    apply namesNodup_append_false _ _ (colName col2)
    · simp only [List.map_map]
      have : (colName ∘ fun (f : String × DType) =>
          ((aliasOf c pfx ++ f.1 : String), f.2, vals.map (getField f.1)))
            = fun (f : String × DType) => specFieldName c pfx f.1 := by
        rw [← halias]
        rfl
      rw [this]
      exact hcollide
    · exact List.mem_map_of_mem colName
        (List.mem_filter.2 ⟨hmem, bne_iff_ne.mpr hne⟩)
  rw [hfalse]
  simp [mkStep]

/-- Witness for claim C9 at a concrete input: a sibling already named
`c_a` collides with the generated name of field `a` under the default
prefix. -/
theorem claim9_witness :
    expandColumn
        [("c", DType.struct [("a", DType.int)], [JVal.null]),
         ("c_a", DType.int, [JVal.null])] "c" none
      = MStep.fail Err.duplicateColumn := by
  exact claim9_expand_collision_raises
    [("c", DType.struct [("a", DType.int)], [JVal.null]),
     ("c_a", DType.int, [JVal.null])] "c" none
    [("a", DType.int)] [JVal.null] ("c_a", DType.int, [JVal.null])
    rfl (List.mem_cons_of_mem _ (List.mem_cons_self _ _)) (by decide) (by decide)

end GDG

namespace GDG

/-- Claim C7: `unnest_column_as_root` keeps only the struct column and then
replaces it with one column per struct field, each named exactly as its
field — no prefix, no separator — because the method passes the empty
string as the prefix. -/
theorem claim7_unnest_root (t : Table) (c : String)
    (fields : List (String × DType)) (vals : List JVal)
    (hfind : findCol t c = some (c, DType.struct fields, vals))
    (hnd : namesNodup (fields.map Prod.fst) = true) :
    unnestColumnAsRoot t c
      = MStep.done (fields.map (fun f => ((f.1 : String), f.2, vals.map (getField f.1)))) := by
  have hone : findCol [((c : String), DType.struct fields, vals)] c
      = some (c, DType.struct fields, vals) := by
    simp [findCol, colName]
  have hnames : (fields.map (fun f =>
      ((aliasOf c (some "") ++ f.1 : String), f.2, vals.map (getField f.1))))
        = fields.map (fun f => ((f.1 : String), f.2, vals.map (getField f.1))) := by
    apply List.map_congr_left
    intro f _
    rw [show aliasOf c (some "") = "" from rfl, str_empty_append]
  unfold unnestColumnAsRoot selectCol
  rw [hfind]
  show (match unnestWithPrefix [((c : String), DType.struct fields, vals)] c (some "") with
    | Except.error e => MStep.failMut e [((c : String), DType.struct fields, vals)]
    | Except.ok t2 => MStep.done t2) = _
  rw [unnestWithPrefix_eq _ _ _ _ _ hone, hnames]
  have hfilter : List.filter (fun c2 => colName c2 != c)
      [((c : String), DType.struct fields, vals)] = [] := by
    simp [colName]
  rw [hfilter, List.append_nil]
  have hcond : namesNodup ((fields.map (fun f =>
      ((f.1 : String), f.2, vals.map (getField f.1)))).map colName) = true := by
    have : (fields.map (fun f =>
        ((f.1 : String), f.2, vals.map (getField f.1)))).map colName
          = fields.map Prod.fst := by
      rw [List.map_map]
      rfl
    rw [this]
    exact hnd
  rw [hcond]
  rfl

/-- Witness for claim C7 at a concrete input. -/
theorem claim7_witness :
    unnestColumnAsRoot
        [("id", DType.int, [JVal.int 9]),
         ("c", DType.struct [("a", DType.int), ("b", DType.str)],
           [JVal.obj [("a", JVal.int 7), ("b", JVal.str "x")]])] "c"
      = MStep.done
          [("a", DType.int, [JVal.int 7]), ("b", DType.str, [JVal.str "x"])] := by
  have h := claim7_unnest_root
    [("id", DType.int, [JVal.int 9]),
     ("c", DType.struct [("a", DType.int), ("b", DType.str)],
       [JVal.obj [("a", JVal.int 7), ("b", JVal.str "x")]])] "c"
    [("a", DType.int), ("b", DType.str)]
    [JVal.obj [("a", JVal.int 7), ("b", JVal.str "x")]] rfl (by decide)
  exact h

/-- Claim C2: `expand_column` replaces the struct column with one column per
struct field — named `"c_f"` under the unset default prefix, `"f"` under the
explicit empty-string prefix, `"p_f"` under a non-empty prefix `p` (the
`specFieldName` rule) — and keeps every other column unchanged, in its
original relative order, after the new field columns. -/
theorem claim2_expand_column (t : Table) (c : String) (pfx : Option String)
    (fields : List (String × DType)) (vals : List JVal)
    (hfind : findCol t c = some (c, DType.struct fields, vals))
    (hnd : namesNodup (fields.map (fun f => specFieldName c pfx f.1)
        ++ (t.filter (fun c2 => colName c2 != c)).map colName) = true) :
    expandColumn t c pfx
      = MStep.done
          ((fields.map (fun f =>
              (specFieldName c pfx f.1, f.2, vals.map (getField f.1))))
            ++ t.filter (fun c2 => colName c2 != c)) := by
  have hnames : (fields.map (fun f =>
      ((aliasOf c pfx ++ f.1 : String), f.2, vals.map (getField f.1))))
        = fields.map (fun f =>
            (specFieldName c pfx f.1, f.2, vals.map (getField f.1))) := by
    apply List.map_congr_left
    intro f _
    rw [aliasOf_append]
  unfold expandColumn
  rw [unnestWithPrefix_eq _ _ _ _ _ hfind, hnames]
  have hcond : namesNodup (((fields.map (fun f =>
      (specFieldName c pfx f.1, f.2, vals.map (getField f.1))))
        ++ t.filter (fun c2 => colName c2 != c)).map colName) = true := by
    rw [List.map_append, List.map_map]
    have : (colName ∘ fun (f : String × DType) =>
        (specFieldName c pfx f.1, f.2, vals.map (getField f.1)))
          = fun (f : String × DType) => specFieldName c pfx f.1 := rfl
    rw [this]
    exact hnd
  rw [hcond]
  rfl

/-- Witness for claim C2 at a concrete input, one per prefix case. -/
theorem claim2_witness :
    expandColumn
        [("c", DType.struct [("a", DType.int)], [JVal.obj [("a", JVal.int 5)]]),
         ("k", DType.str, [JVal.str "s"])] "c" (some "x")
      = MStep.done
          [("x_a", DType.int, [JVal.int 5]), ("k", DType.str, [JVal.str "s"])] := by
  have h := claim2_expand_column
    [("c", DType.struct [("a", DType.int)], [JVal.obj [("a", JVal.int 5)]]),
     ("k", DType.str, [JVal.str "s"])] "c" (some "x")
    [("a", DType.int)] [JVal.obj [("a", JVal.int 5)]] rfl (by decide)
  exact h

end GDG

namespace GDG

theorem lookupKey_cons_self (k : String) (v : JVal) (r : List (String × JVal)) :
    lookupKey ((k, v) :: r) k = v := by
  unfold lookupKey
  rw [List.find?_cons_of_pos _ (by simp)]

theorem lookupKey_cons_ne (k0 : String) (v : JVal) (r : List (String × JVal))
    (k : String) (h : k0 ≠ k) : lookupKey ((k0, v) :: r) k = lookupKey r k := by
  unfold lookupKey
  rw [List.find?_cons_of_neg _ (by simp [h])]

/-- Rebuilding a record from its own key list by key lookup gives the
record back, provided its keys are distinct. -/
theorem reconstruct_row (q : List (String × JVal)) (ks : List String)
    (hk : q.map Prod.fst = ks) (hnd : namesNodup ks = true) :
    ks.map (fun k => (k, lookupKey q k)) = q := by
  induction q generalizing ks with
  | nil =>
      subst hk
      rfl
  | cons a q ih =>
      subst hk
      obtain ⟨k0, v0⟩ := a
      rw [List.map_cons, namesNodup_cons] at hnd
      simp only [Bool.and_eq_true, Bool.not_eq_true'] at hnd
      rcases hnd with ⟨h1, h2⟩
      have hnotmem : k0 ∉ q.map Prod.fst := by
        intro hm
        have h3 : (q.map Prod.fst).contains k0 = true :=
          List.elem_eq_true_of_mem hm
        cases h3.symm.trans h1
      simp only [List.map_cons]
      congr 1
      · rw [lookupKey_cons_self]
      · have hmapq : (q.map Prod.fst).map
              (fun k => ((k : String), lookupKey ((k0, v0) :: q) k))
            = (q.map Prod.fst).map (fun k => ((k : String), lookupKey q k)) := by
          apply List.map_congr_left
          intro k hkmem
          have hne : k0 ≠ k := fun he => hnotmem (he ▸ hkmem)
          rw [lookupKey_cons_ne k0 v0 q k hne]
        rw [hmapq]
        exact ih (q.map Prod.fst) rfl h2

/-- Claim C1: building an adapter from well-formed JSON records (uniform,
duplicate-free, non-empty key lists) and calling `to_json()` reproduces the
rows exactly — same row count, same keys mapped to the same values in every
row — for any number of rows. -/
theorem claim1_round_trip (ks : List String) (rows : List (List (String × JVal)))
    (hks : ∀ r ∈ rows, r.map Prod.fst = ks)
    (hnd : namesNodup ks = true) (hne : ks ≠ []) :
    toDicts (readJsonRecords rows) = rows := by
  cases rows with
  | nil => rfl
  | cons r0 rest =>
      have hr0 : r0.map Prod.fst = ks := hks r0 (List.mem_cons_self _ _)
      have hheight : height (readJsonRecords (r0 :: rest)) = (r0 :: rest).length := by
        cases r0 with
        | nil => exact absurd hr0.symm hne
        | cons kv0 r0tl => simp [readJsonRecords, height, colVals]
      apply List.ext_getElem
      · simp [toDicts, hheight]
      · intro i h1 h2
        simp only [toDicts, hheight, List.getElem_map, List.getElem_range]
        show rowAt (readJsonRecords (r0 :: rest)) i = (r0 :: rest)[i]
        have hgetD : ∀ (g : List (String × JVal) → JVal),
            (((r0 :: rest).map g).getD i JVal.null) = g ((r0 :: rest)[i]) := by
          intro g
          rw [List.getD_eq_getElem?_getD, List.getElem?_map,
            List.getElem?_eq_getElem h2]
          rfl
        have hrow : rowAt (readJsonRecords (r0 :: rest)) i
            = r0.map (fun kv =>
                ((kv.1 : String), lookupKey ((r0 :: rest)[i]) kv.1)) := by
          simp only [rowAt, readJsonRecords, List.map_map]
          apply List.map_congr_left
          intro kv _
          show ((kv.1 : String),
              (((r0 :: rest).map (fun r => lookupKey r kv.1)).getD i JVal.null)) = _
          rw [hgetD (fun r => lookupKey r kv.1)]
        rw [hrow]
        have hcomp : (fun (kv : String × JVal) =>
            ((kv.1 : String), lookupKey ((r0 :: rest)[i]) kv.1))
          = (fun k => ((k : String), lookupKey ((r0 :: rest)[i]) k)) ∘ Prod.fst := rfl
        rw [hcomp, ← List.map_map, hr0]
        exact reconstruct_row _ ks (hks _ (List.getElem_mem h2)) hnd

/-- Witness for claim C1 at a concrete two-row input. -/
theorem claim1_witness :
    toDicts (readJsonRecords
        [[("a", JVal.int 1), ("b", JVal.str "u")],
         [("a", JVal.int 2), ("b", JVal.str "v")]])
      = [[("a", JVal.int 1), ("b", JVal.str "u")],
         [("a", JVal.int 2), ("b", JVal.str "v")]] := by
  apply claim1_round_trip ["a", "b"]
  · intro r hr
    rcases List.mem_cons.1 hr with h | h
    · subst h
      rfl
    · rcases List.mem_cons.1 h with h | h
      · subst h
        rfl
      · cases h
  · decide
  · decide

end GDG

namespace GDG

theorem step_tables (h : Heap) (a : AdapterRef) (op : Op) :
    ∃ ext, (step h a op).1.tables = h.tables ++ ext := by
  unfold step
  split
  · exact ⟨[], (List.append_nil _).symm⟩
  · split
    · exact ⟨[_], rfl⟩
    · exact ⟨[], (List.append_nil _).symm⟩
    · exact ⟨[_], rfl⟩

/-- Claim C10: running any sequence of transform calls only ever appends
newly produced tables to the store of live table objects and rebinds the
adapter — every table that existed before the sequence, in particular the
one supplied at construction, is still there unchanged afterwards. -/
theorem claim10_no_mutation (h : Heap) (a : AdapterRef) (ops : List Op) :
    ((runOps h a ops).1).tables.take h.tables.length = h.tables := by
  induction ops generalizing h a with
  | nil => exact List.take_length _
  | cons op ops ih =>
      show ((runOps (step h a op).1 (step h a op).2 ops).1).tables.take
          h.tables.length = h.tables
      rcases step_tables h a op with ⟨ext, hext⟩
      have ihs := ih (step h a op).1 (step h a op).2
      rw [hext] at ihs
      have hmin : min h.tables.length (h.tables ++ ext).length
          = h.tables.length := by
        rw [List.length_append]
        exact Nat.min_eq_left (Nat.le_add_right _ _)
      calc ((runOps (step h a op).1 (step h a op).2 ops).1).tables.take
              h.tables.length
          = (((runOps (step h a op).1 (step h a op).2 ops).1).tables.take
              (h.tables ++ ext).length).take h.tables.length := by
            rw [List.take_take, hmin]
        _ = (h.tables ++ ext).take h.tables.length := by rw [ihs]
        _ = h.tables := List.take_left h.tables ext

end GDG

namespace GDG

theorem findCol_map (t : Table) (g : Col → Col)
    (hg : ∀ c2, colName (g c2) = colName c2) (n : String) :
    findCol (t.map g) n = (findCol t n).map g := by
  induction t with
  | nil => rfl
  | cons a t ih =>
      unfold findCol
      rw [List.map_cons]
      by_cases hb : (colName a == n) = true
      · have h1 : List.find? (fun c => colName c == n) (g a :: t.map g)
            = some (g a) :=
          List.find?_cons_of_pos _ (by rw [hg]; exact hb)
        have h2 : List.find? (fun c => colName c == n) (a :: t) = some a :=
          List.find?_cons_of_pos _ hb
        rw [h1, h2]
        rfl
      · have h1 : List.find? (fun c => colName c == n) (g a :: t.map g)
            = List.find? (fun c => colName c == n) (t.map g) :=
          List.find?_cons_of_neg _ (by rw [hg]; exact hb)
        have h2 : List.find? (fun c => colName c == n) (a :: t)
            = List.find? (fun c => colName c == n) t :=
          List.find?_cons_of_neg _ hb
        rw [h1, h2]
        exact ih

theorem filter_map_names (t : Table) (g : Col → Col)
    (hg : ∀ c2, colName (g c2) = colName c2) (p : String → Bool) :
    (t.map g).filter (fun c2 => p (colName c2))
      = (t.filter (fun c2 => p (colName c2))).map g := by
  induction t with
  | nil => rfl
  | cons a t ih =>
      rw [List.map_cons, List.filter_cons, List.filter_cons, hg]
      by_cases hp : p (colName a) = true
      · simp only [hp, if_true, List.map_cons, ih]
      · simp only [hp, if_false, ih, Bool.false_eq_true]

theorem map_colName_map (t : Table) (g : Col → Col)
    (hg : ∀ c2, colName (g c2) = colName c2) :
    (t.map g).map colName = t.map colName := by
  rw [List.map_map]
  exact List.map_congr_left (fun c2 _ => hg c2)

/-- Claim C6 counterexample: exploding a 3-row table whose array column has
per-row lengths 2, 0 and 1 yields 4 rows, not 3 — polars turns the empty
array into one null row instead of zero rows. -/
theorem claim6_counterexample :
    unnestColumnAsRows
        [("id", DType.int, [JVal.int 1, JVal.int 2, JVal.int 3]),
         ("xs", DType.list (DType.struct [("a", DType.int)]),
           [JVal.arr [JVal.obj [("a", JVal.int 1)], JVal.obj [("a", JVal.int 2)]],
            JVal.arr [],
            JVal.arr [JVal.obj [("a", JVal.int 3)]]])] "xs" none
      = MStep.done
          [("xs_a", DType.int, [JVal.int 1, JVal.int 2, JVal.null, JVal.int 3]),
           ("id", DType.int, [JVal.int 1, JVal.int 1, JVal.int 2, JVal.int 3])] ∧
    height [("xs_a", DType.int, [JVal.int 1, JVal.int 2, JVal.null, JVal.int 3]),
            ("id", DType.int, [JVal.int 1, JVal.int 1, JVal.int 2, JVal.int 3])]
      ≠ 2 + 0 + 1 := by
  exact ⟨rfl, by decide⟩

end GDG

namespace GDG

theorem colName_explodeColAction (c : String) (elemTy : DType)
    (counts : List Nat) (c2 : Col) :
    colName (explodeColAction c elemTy counts c2) = colName c2 := by
  unfold explodeColAction
  split <;> rfl

/-- Claim C6 (amended): on a 3-row table whose array-of-structs column has
per-row lengths 2, 0 and 1, `unnest_column_as_rows` succeeds and produces
2+1+1 = 4 rows, not 3 — polars explodes the empty array into one row whose
expanded fields are null.  Every produced row carries the other columns'
values duplicated from its source row (multiplicities 2, 1, 1), and the
element structs are expanded into sibling columns named per the prefixing
rule. -/
theorem claim6_unnest_rows (t : Table) (c : String) (pfx : Option String)
    (fields : List (String × DType)) (s1 s2 s3 : JVal)
    (hfind : findCol t c = some (c, DType.list (DType.struct fields),
        [JVal.arr [s1, s2], JVal.arr [], JVal.arr [s3]]))
    (_hrows : ∀ c2 ∈ t, (colVals c2).length = 3)
    (hnd : namesNodup (fields.map (fun f => specFieldName c pfx f.1)
        ++ (t.filter (fun c2 => colName c2 != c)).map colName) = true)
    (hfne : fields ≠ []) :
    unnestColumnAsRows t c pfx
      = MStep.done
          ((fields.map (fun f => (specFieldName c pfx f.1, f.2,
              [getField f.1 s1, getField f.1 s2, JVal.null, getField f.1 s3])))
            ++ (t.filter (fun c2 => colName c2 != c)).map
                (fun c2 => ((colName c2 : String), colType c2,
                  dupRows (colVals c2) [2, 1, 1])))
      ∧ height
          ((fields.map (fun f => (specFieldName c pfx f.1, f.2,
              [getField f.1 s1, getField f.1 s2, JVal.null, getField f.1 s3])))
            ++ (t.filter (fun c2 => colName c2 != c)).map
                (fun c2 => ((colName c2 : String), colType c2,
                  dupRows (colVals c2) [2, 1, 1]))) = 4 := by
  have hg := colName_explodeColAction c (DType.struct fields) [2, 1, 1]
  have hexp : explode t c
      = Except.ok (t.map (explodeColAction c (DType.struct fields) [2, 1, 1])) := by
    unfold explode
    rw [hfind]
    rfl
  have hfind1 : findCol (t.map (explodeColAction c (DType.struct fields) [2, 1, 1])) c
      = some ((c : String), DType.struct fields, [s1, s2, JVal.null, s3]) := by
    rw [findCol_map _ _ hg, hfind]
    show some (explodeColAction c (DType.struct fields) [2, 1, 1]
        ((c : String), DType.list (DType.struct fields),
          [JVal.arr [s1, s2], JVal.arr [], JVal.arr [s3]])) = _
    unfold explodeColAction
    rw [if_pos (by simp [colName])]
    rfl
  constructor
  · unfold unnestColumnAsRows
    rw [hexp]
    show (match unnestWithPrefix
          (t.map (explodeColAction c (DType.struct fields) [2, 1, 1])) c pfx with
      | Except.error e =>
          MStep.failMut e (t.map (explodeColAction c (DType.struct fields) [2, 1, 1]))
      | Except.ok t2 => MStep.done t2) = _
    rw [unnestWithPrefix_eq _ _ _ _ _ hfind1]
    have hfc : (fields.map (fun f => ((aliasOf c pfx ++ f.1 : String), f.2,
        ([s1, s2, JVal.null, s3].map (getField f.1)))))
      = fields.map (fun f => (specFieldName c pfx f.1, f.2,
          [getField f.1 s1, getField f.1 s2, JVal.null, getField f.1 s3])) := by
      apply List.map_congr_left
      intro f _
      rw [aliasOf_append]
      simp [getField]
    have hrest : (t.map (explodeColAction c (DType.struct fields) [2, 1, 1])).filter
          (fun c2 => colName c2 != c)
        = (t.filter (fun c2 => colName c2 != c)).map
            (explodeColAction c (DType.struct fields) [2, 1, 1]) :=
      filter_map_names t _ hg (fun s => s != c)
    have hmap2 : (t.filter (fun c2 => colName c2 != c)).map
          (explodeColAction c (DType.struct fields) [2, 1, 1])
        = (t.filter (fun c2 => colName c2 != c)).map
            (fun c2 => ((colName c2 : String), colType c2,
              dupRows (colVals c2) [2, 1, 1])) := by
      apply List.map_congr_left
      intro c2 hc2
      have hb : (colName c2 == c) = false := by
        have hf2 := (List.mem_filter.1 hc2).2
        simpa using hf2
      simp [explodeColAction, hb]
    rw [hfc, hrest, hmap2]
    have hcond : namesNodup (((fields.map (fun f => (specFieldName c pfx f.1, f.2,
          [getField f.1 s1, getField f.1 s2, JVal.null, getField f.1 s3])))
        ++ (t.filter (fun c2 => colName c2 != c)).map
            (fun c2 => ((colName c2 : String), colType c2,
              dupRows (colVals c2) [2, 1, 1]))).map colName) = true := by
      rw [List.map_append, List.map_map, List.map_map]
      have e1 : (colName ∘ fun f : String × DType => (specFieldName c pfx f.1, f.2,
          [getField f.1 s1, getField f.1 s2, JVal.null, getField f.1 s3]))
        = fun f : String × DType => specFieldName c pfx f.1 := rfl
      have e2 : (colName ∘ fun c2 : Col => ((colName c2 : String), colType c2,
          dupRows (colVals c2) [2, 1, 1])) = colName := rfl
      rw [e1, e2]
      exact hnd
    rw [if_pos hcond]
  · rcases List.exists_cons_of_ne_nil hfne with ⟨f0, fs, hf⟩
    rw [hf]
    rfl

end GDG

namespace GDG

/-- Witness for the amended claim C6 at a concrete input: `id` column
`[1, 2, 3]`, array column with per-row lengths 2, 0 and 1. -/
theorem claim6_witness :
    unnestColumnAsRows
        [("id", DType.int, [JVal.int 1, JVal.int 2, JVal.int 3]),
         ("xs", DType.list (DType.struct [("a", DType.int)]),
           [JVal.arr [JVal.obj [("a", JVal.int 1)], JVal.obj [("a", JVal.int 2)]],
            JVal.arr [], JVal.arr [JVal.obj [("a", JVal.int 3)]]])] "xs" none
      = MStep.done
          [("xs_a", DType.int, [JVal.int 1, JVal.int 2, JVal.null, JVal.int 3]),
           ("id", DType.int, [JVal.int 1, JVal.int 1, JVal.int 2, JVal.int 3])] := by
  have h := claim6_unnest_rows
    [("id", DType.int, [JVal.int 1, JVal.int 2, JVal.int 3]),
     ("xs", DType.list (DType.struct [("a", DType.int)]),
       [JVal.arr [JVal.obj [("a", JVal.int 1)], JVal.obj [("a", JVal.int 2)]],
        JVal.arr [], JVal.arr [JVal.obj [("a", JVal.int 3)]]])] "xs" none
    [("a", DType.int)]
    (JVal.obj [("a", JVal.int 1)]) (JVal.obj [("a", JVal.int 2)])
    (JVal.obj [("a", JVal.int 3)])
    rfl (by decide) (by decide) (List.cons_ne_nil _ _)
  exact h.1

end GDG
